import Mathlib

/-!
Verification of the orchestration core of the nested-mcps repository.

The embedding mirrors `src/mcp2_orchestrator/agent.py` (the `Scratchpad`
data model, the tool dispatch and the `Agent.run` loop) and the `search`
branch of `call_tool` in `src/mcp1_vectorstore/server.py`.  External
collaborators — the planning LLM, the embedding model and the network —
are modelled as oracles passed in as function arguments; everything the
repository's own code computes is embedded directly.
-/

namespace NestedMcps

/-- Status of a task, from the `Task` dataclass in agent.py:
`Literal["pending", "running", "complete", "blocked"]`. -/
inductive TaskStatus where
  | pending
  | running
  | complete
  | blocked
deriving DecidableEq, Repr

/-- The `Task` dataclass of agent.py.  Python ids are ints produced by the
scratchpad's monotone counter starting at 0, so `Nat` is faithful. -/
structure Task where
  id : Nat
  description : String
  status : TaskStatus
  depends_on : List Nat
  result : Option String
deriving DecidableEq, Repr

/-- The `Scratchpad` dataclass of agent.py.  `next_id` embeds the private
`_next_id` counter. -/
structure Scratchpad where
  question : String
  tasks : List Task
  final_answer : Option String
  next_id : Nat
deriving DecidableEq, Repr

/-- A fresh scratchpad, as `Scratchpad(question=question)` builds it. -/
def Scratchpad.init (question : String) : Scratchpad :=
  ⟨question, [], none, 0⟩

/-- `Scratchpad.add_task`: takes the current counter as the new id, bumps the
counter and appends the task; there is no validation of `depends_on` and no
failure path in the source.  Returns the new state and the returned id. -/
def Scratchpad.add_task (s : Scratchpad) (description : String)
    (depends_on : List Nat) : Scratchpad × Nat :=
  let task_id := s.next_id
  ({ s with
      next_id := s.next_id + 1,
      tasks := s.tasks ++ [⟨task_id, description, TaskStatus.pending, depends_on, none⟩] },
   task_id)

/-- The `for t in self.tasks` loop of `Scratchpad.complete_task`: update the
first task whose id matches and stop; no match leaves the list unchanged. -/
def completeFirst : List Task → Nat → String → List Task
  | [], _, _ => []
  | t :: ts, task_id, result =>
    if t.id = task_id then
      { t with status := TaskStatus.complete, result := some result } :: ts
    else
      t :: completeFirst ts task_id result

/-- `Scratchpad.complete_task`: mark the first task with the given id complete
and record the result; an unknown id is a silent no-op. -/
def Scratchpad.complete_task (s : Scratchpad) (task_id : Nat) (result : String) :
    Scratchpad :=
  { s with tasks := completeFirst s.tasks task_id result }

/-- The set `{t.id for t in self.tasks if t.status == "complete"}` from
`Scratchpad.runnable_tasks`, as a list of ids. -/
def Scratchpad.complete_ids (s : Scratchpad) : List Nat :=
  (s.tasks.filter (fun t => decide (t.status = TaskStatus.complete))).map Task.id

/-- `Scratchpad.runnable_tasks`: pending tasks all of whose dependencies are
ids of complete tasks (`set(t.depends_on).issubset(complete_ids)`). -/
def Scratchpad.runnable_tasks (s : Scratchpad) : List Task :=
  s.tasks.filter (fun t =>
    decide (t.status = TaskStatus.pending) &&
      t.depends_on.all (fun d => s.complete_ids.contains d))

/-- A sequence of `add_task` calls, threading the scratchpad and collecting
the returned ids in call order. -/
def addAll (s : Scratchpad) : List (String × List Nat) → Scratchpad × List Nat
  | [] => (s, [])
  | (d, deps) :: rest =>
    let r1 := s.add_task d deps
    let r2 := addAll r1.1 rest
    (r2.1, r1.2 :: r2.2)

/-! ## The orchestration loop (`Agent.run`) -/

/-- `MAX_ITERATIONS` from agent.py. -/
def MAX_ITERATIONS : Nat := 10

/-- One search result record, as the vectorstore server emits and the
orchestrator forwards: `{doc_id, content, score}`.  Scores are cosine
similarities computed by external numeric code; they are embedded as
rationals, which preserves their ordering behaviour. -/
structure SearchResult where
  doc_id : Nat
  content : String
  score : ℚ
deriving DecidableEq, Repr

/-- The parsed JSON `arguments` of one tool call.  Fields the dispatcher
reads with a default (`args.get`) are `Option`s; fields it requires are
plain (the modelled calls carry them). -/
structure ToolArgs where
  query : String
  top_k : Option Int
  description : String
  depends_on : Option (List Nat)
  task_id : Nat
  result : String
  answer : String
deriving DecidableEq, Repr

/-- Arguments record with every optional field absent and every required
field at a neutral value; concrete calls override what they use. -/
def ToolArgs.none0 : ToolArgs :=
  ⟨"", Option.none, "", Option.none, 0, "", ""⟩

/-- One proposed tool invocation (`ChatCompletionMessageToolCall`): the
correlation token `id`, the function name and its parsed arguments. -/
structure ToolCall where
  id : String
  name : String
  args : ToolArgs
deriving DecidableEq, Repr

/-- One planner response: optional free text and zero or more tool calls
(`msg.content`, `msg.tool_calls`; a `None` tool-call list and an empty one
are both falsy in the source and are both modelled by `[]`). -/
structure PlannerResponse where
  content : Option String
  tool_calls : List ToolCall
deriving DecidableEq, Repr

/-- The payload of a tool-result message, standing for the `json.dumps`
content strings in agent.py: search results, a new task id,
status "ok", or status "done". -/
inductive Payload where
  | searchResults (rs : List SearchResult)
  | taskId (id : Nat)
  | ok
  | done
deriving DecidableEq, Repr

/-- One transcript entry: the planner's message (appended verbatim) or a
tool result correlated by `tool_call_id`. -/
inductive Message where
  | assistant (content : Option String) (tool_calls : List ToolCall)
  | tool (tool_call_id : String) (payload : Payload)
deriving DecidableEq, Repr

/-- The search capability as seen by the loop (`Mcp1Client.search`):
an oracle from query and top_k to result records. -/
def SearchFn : Type := String → Int → List SearchResult

/-- How the loop left: an in-loop `return msg.content`, a `break`
(explicit finish or empty implicit-finish text), or the `for` range
running out. -/
inductive RunExit where
  | returned (c : String)
  | broke
  | exhausted
deriving DecidableEq, Repr

/-- State carried out of the loop: final scratchpad, transcript, exit mode. -/
structure LoopResult where
  scratchpad : Scratchpad
  messages : List Message
  exit : RunExit
deriving DecidableEq, Repr

/-- Outcome of the sequential mutation pass: new scratchpad, the tool-result
messages appended (in emission order), and the `done` flag. -/
structure MutOut where
  scratchpad : Scratchpad
  results : List Message
  done : Bool
deriving DecidableEq, Repr

/-- One arm of the sequential `for tc in non_search_calls` dispatch:
`add_task`, `complete_task` and `finish` mutate the scratchpad and append a
result; any other name matches no branch — nothing happens. -/
def dispatchMutation (s : Scratchpad) (tc : ToolCall) :
    Scratchpad × Option Message × Bool :=
  if tc.name = "add_task" then
    let r := s.add_task tc.args.description (tc.args.depends_on.getD [])
    (r.1, some (Message.tool tc.id (Payload.taskId r.2)), false)
  else if tc.name = "complete_task" then
    (s.complete_task tc.args.task_id tc.args.result,
     some (Message.tool tc.id Payload.ok), false)
  else if tc.name = "finish" then
    ({ s with final_answer := some tc.args.answer },
     some (Message.tool tc.id Payload.done), true)
  else
    (s, Option.none, false)

/-- The whole sequential mutation pass over the non-search calls of a round;
`done` is the disjunction of the per-call flags, as the Python flag is set
and never cleared within the round. -/
def dispatchMutations (s : Scratchpad) : List ToolCall → MutOut
  | [] => ⟨s, [], false⟩
  | tc :: rest =>
    let r := dispatchMutation s tc
    let out := dispatchMutations r.1 rest
    ⟨out.scratchpad, r.2.1.toList ++ out.results, r.2.2 || out.done⟩

/-- The result message of one search call: the `_search` closure reads
`query` and `top_k` (default 3) and wraps the client results with the
call's correlation token. -/
def searchMessage (f : SearchFn) (tc : ToolCall) : Message :=
  Message.tool tc.id
    (Payload.searchResults (f tc.args.query (tc.args.top_k.getD 3)))

/-- The search results of a round as `asyncio.gather` returns them: one per
search call, in the order the calls were emitted. -/
def searchMessages (f : SearchFn) (calls : List ToolCall) : List Message :=
  calls.map (searchMessage f)

/-- The search calls of a round, in emission order
(`tc.function.name == "search_knowledge"`). -/
def searchCalls (calls : List ToolCall) : List ToolCall :=
  calls.filter (fun tc => decide (tc.name = "search_knowledge"))

/-- The non-search calls of a round, in emission order. -/
def nonSearchCalls (calls : List ToolCall) : List ToolCall :=
  calls.filter (fun tc => ! decide (tc.name = "search_knowledge"))

/-- The `for iteration in range(MAX_ITERATIONS)` loop of `Agent.run`,
structurally recursive on the remaining fuel.  The planner oracle maps the
iteration index to that round's response. -/
def runAux (f : SearchFn) (planner : Nat → PlannerResponse) :
    Nat → Nat → Scratchpad → List Message → LoopResult
  | 0, _, s, msgs => ⟨s, msgs, RunExit.exhausted⟩
  | fuel + 1, iteration, s, msgs =>
    let resp := planner iteration
    let msgs1 := msgs ++ [Message.assistant resp.content resp.tool_calls]
    if resp.tool_calls.isEmpty then
      match resp.content with
      | some c => if c = "" then ⟨s, msgs1, RunExit.broke⟩
                  else ⟨s, msgs1, RunExit.returned c⟩
      | Option.none => ⟨s, msgs1, RunExit.broke⟩
    else
      let search_results := searchMessages f (searchCalls resp.tool_calls)
      let md := dispatchMutations s (nonSearchCalls resp.tool_calls)
      let msgs2 := msgs1 ++ search_results ++ md.results
      if md.done then ⟨md.scratchpad, msgs2, RunExit.broke⟩
      else runAux f planner fuel (iteration + 1) md.scratchpad msgs2

/-- Completed tasks with a truthy result, as the fallback at the bottom of
`Agent.run` selects them (`t.status == "complete" and t.result`). -/
def completedWithResult (s : Scratchpad) : List Task :=
  s.tasks.filter (fun t =>
    decide (t.status = TaskStatus.complete) && ! decide ((t.result.getD "") = ""))

/-- The partial-answer string the fallback builds from the completed tasks. -/
def partialAnswer (ts : List Task) : String :=
  "[Partial answer — max iterations reached]\n" ++
    String.intercalate "\n"
      (ts.map (fun t => "- " ++ t.description ++ ": " ++ t.result.getD ""))

/-- The fixed no-results message of the fallback. -/
def noResultsMsg : String :=
  "Unable to answer: no results retrieved within iteration limit."

/-- Lines 309–318 of agent.py: resolve the answer from the final scratchpad.
`if scratchpad.final_answer:` is a Python truthiness test, false for both
`None` and the empty string. -/
def resolve (s : Scratchpad) : String :=
  match s.final_answer with
  | some a =>
    if a = "" then
      if (completedWithResult s).isEmpty then noResultsMsg
      else partialAnswer (completedWithResult s)
    else a
  | Option.none =>
    if (completedWithResult s).isEmpty then noResultsMsg
    else partialAnswer (completedWithResult s)

/-- The observable outcome of a run.  The Python coroutine returns only
`answer`; the final scratchpad, transcript and exit mode are retained as
specification-level observations of the same execution. -/
structure RunResult where
  answer : String
  scratchpad : Scratchpad
  messages : List Message
  exit : RunExit
deriving DecidableEq, Repr

/-- `Agent.run`: fresh scratchpad, loop for `MAX_ITERATIONS` rounds; an
in-loop `return` yields the implicit-finish text, otherwise the fallback
resolution of the final scratchpad is returned. -/
def Agent.run (f : SearchFn) (planner : Nat → PlannerResponse)
    (question : String) : RunResult :=
  let r := runAux f planner MAX_ITERATIONS 0 (Scratchpad.init question) []
  match r.exit with
  | RunExit.returned c => ⟨c, r.scratchpad, r.messages, r.exit⟩
  | _ => ⟨resolve r.scratchpad, r.scratchpad, r.messages, r.exit⟩

/-! ## The vectorstore search tool (`call_tool` in mcp1_vectorstore/server.py)

The embedding model and the cosine arithmetic are external numeric code
(`embed`, numpy): they are abstracted into a score oracle mapping the query
to the per-document score vector.  The document corpus is likewise data, not
logic, and is a parameter.  What the server itself computes — argsort
descending, the slice to `top_k`, the record construction — is embedded. -/

/-- Python list slicing `l[:k]`: a nonnegative bound keeps the first `k`
elements, a negative bound drops the last `|k|`. -/
def pySliceTo (k : Int) (l : List α) : List α :=
  if 0 ≤ k then l.take k.toNat else l.take (l.length - (-k).toNat)

/-- `np.argsort(scores)[::-1]`: indices of the score vector, sorted so the
scores run descending (ascending argsort, then reversed). -/
def argsortDescending (score : Nat → ℚ) (n : Nat) : List Nat :=
  (List.insertionSort (fun i j => score i ≤ score j) (List.range n)).reverse

/-- The `search` branch of `call_tool`: read `query`, default `top_k` to 3
when absent, rank all documents by score and return the top slice as
`{doc_id, content, score}` records.  `scoreFn` stands for the composite of
`embed` and the cosine computation; `documents` for the `DOCUMENTS` list. -/
def mcp1Search (documents : List String) (scoreFn : String → List ℚ)
    (query : String) (top_k_arg : Option Int) : List SearchResult :=
  let scores := scoreFn query
  let score := fun i => scores.getD i 0
  let top_k := top_k_arg.getD 3
  let top_indices := pySliceTo top_k (argsortDescending score documents.length)
  top_indices.map (fun idx => ⟨idx, documents.getD idx "", score idx⟩)

/-- `call_tool` itself: `list_documents` is not on any claim path and its
branch only repackages `documents`; `search` dispatches to `mcp1Search`; any
other name raises `ValueError("Unknown tool: ...")`. -/
def mcp1CallTool (documents : List String) (scoreFn : String → List ℚ)
    (name : String) (query : String) (top_k_arg : Option Int) :
    Except String (List SearchResult) :=
  if name = "search" then
    Except.ok (mcp1Search documents scoreFn query top_k_arg)
  else
    Except.error ("Unknown tool: " ++ name)

/-- A Python slice `l[:k]` is a sublist of `l` for either sign of `k`. -/
theorem pySliceTo_sublist (k : Int) (l : List α) : List.Sublist (pySliceTo k l) l := by
  unfold pySliceTo
  by_cases h : 0 ≤ k <;> simp [h, List.take_sublist]

/-- The argsort-then-reverse index list carries its scores in descending
order. -/
theorem argsortDescending_pairwise (score : Nat → ℚ) (n : Nat) :
    List.Pairwise (fun i j => score j ≤ score i) (argsortDescending score n) := by
  unfold argsortDescending
  rw [List.pairwise_reverse]
  haveI : IsTotal Nat (fun i j => score i ≤ score j) := ⟨fun a b => le_total _ _⟩
  haveI : IsTrans Nat (fun i j => score i ≤ score j) :=
    ⟨fun a b c h1 h2 => le_trans h1 h2⟩
  exact List.sorted_insertionSort _ _

/-! ## Completion-order model of `asyncio.gather`

`gather` starts one coroutine per search call and collects each result into
the slot of its originating call; the order in which completions arrive is a
schedule, and the collected list is read off slot by slot in emission order
once every slot is filled.  This reflects the pairing of results to
correlation slots that `asyncio.gather` guarantees. -/

/-- Whether a run exit is an in-loop return of implicit-finish text. -/
def RunExit.isReturned : RunExit → Bool
  | RunExit.returned _ => true
  | _ => false

/-- Whether a transcript entry is a tool result. -/
def isToolResult : Message → Bool
  | Message.tool _ _ => true
  | _ => false

/-- Process completion events in schedule order: each event writes the
result of call `i` into slot `i`. -/
def completionFill {n : Nat} (res : Fin n → Message) :
    List (Fin n) → (Fin n → Option Message) → (Fin n → Option Message)
  | [], acc => acc
  | i :: rest, acc => completionFill res rest (Function.update acc i (some (res i)))

/-- The slots of a gathered batch after the completions in `schedule` have
arrived, read in emission order. -/
def gatherSlots (f : SearchFn) (calls : List ToolCall)
    (schedule : List (Fin calls.length)) : List (Option Message) :=
  List.ofFn (completionFill (fun i => searchMessage f calls[i]) schedule
    (fun _ => Option.none))

/-! ## Helper lemmas -/

/-- `complete_task` on an id no task carries leaves the task list unchanged. -/
theorem completeFirst_of_not_mem {l : List Task} {task_id : Nat} {result : String}
    (h : task_id ∉ l.map Task.id) : completeFirst l task_id result = l := by
  induction l with
  | nil => rfl
  | cons t ts ih =>
    simp only [List.map_cons, List.mem_cons] at h
    push_neg at h
    simp [completeFirst, Ne.symm h.1, ih h.2]

/-- The ids returned by a run of `add_task` calls are the consecutive
naturals starting at the initial counter. -/
theorem addAll_ids (s : Scratchpad) (specs : List (String × List Nat)) :
    (addAll s specs).2 = List.range' s.next_id specs.length := by
  induction specs generalizing s with
  | nil => rfl
  | cons p rest ih =>
    obtain ⟨d, deps⟩ := p
    simp [addAll, Scratchpad.add_task, List.range'_succ, ih]

/-- A run of `add_task` calls appends exactly the returned ids to the id
sequence of the task list; no existing task is removed or renumbered. -/
theorem addAll_tasks_map (s : Scratchpad) (specs : List (String × List Nat)) :
    (addAll s specs).1.tasks.map Task.id = s.tasks.map Task.id ++ (addAll s specs).2 := by
  induction specs generalizing s with
  | nil => simp [addAll]
  | cons p rest ih =>
    obtain ⟨d, deps⟩ := p
    simp [addAll, ih, Scratchpad.add_task]

/-- A single dispatched mutation that does not set `done` leaves
`final_answer` alone: only the `finish` branch writes it, and that branch
sets `done`. -/
theorem dispatchMutation_final_answer_of_not_done (s : Scratchpad) (tc : ToolCall)
    (h : (dispatchMutation s tc).2.2 = false) :
    (dispatchMutation s tc).1.final_answer = s.final_answer := by
  by_cases h1 : tc.name = "add_task"
  · simp [dispatchMutation, h1, Scratchpad.add_task]
  · by_cases h2 : tc.name = "complete_task"
    · simp [dispatchMutation, h1, h2, Scratchpad.complete_task]
    · by_cases h3 : tc.name = "finish"
      · simp [dispatchMutation, h1, h2, h3] at h
      · simp [dispatchMutation, h1, h2, h3]

/-- A mutation pass whose `done` flag ends false never executed a `finish`,
so it leaves `final_answer` alone. -/
theorem dispatchMutations_final_answer_of_not_done (s : Scratchpad)
    (calls : List ToolCall) (h : (dispatchMutations s calls).done = false) :
    (dispatchMutations s calls).scratchpad.final_answer = s.final_answer := by
  induction calls generalizing s with
  | nil => rfl
  | cons tc rest ih =>
    simp only [dispatchMutations, Bool.or_eq_false_iff] at h ⊢
    rw [ih _ h.2, dispatchMutation_final_answer_of_not_done s tc h.1]

/-- If the loop runs its fuel out (never breaking, never returning), no
`finish` was ever dispatched: `final_answer` is still its entry value. -/
theorem runAux_exhausted_final_answer (f : SearchFn) (p : Nat → PlannerResponse)
    (fuel it : Nat) (s : Scratchpad) (msgs : List Message)
    (h : (runAux f p fuel it s msgs).exit = RunExit.exhausted) :
    (runAux f p fuel it s msgs).scratchpad.final_answer = s.final_answer := by
  induction fuel generalizing it s msgs with
  | zero => rfl
  | succ fuel ih =>
    by_cases he : (p it).tool_calls.isEmpty
    · exfalso
      revert h
      simp only [runAux, he, if_true]
      cases (p it).content with
      | none => simp
      | some c => by_cases hce : c = "" <;> simp [hce]
    · simp only [runAux, he, if_false] at h ⊢
      cases hd : (dispatchMutations s (nonSearchCalls (p it).tool_calls)).done with
      | true => simp [hd] at h
      | false =>
        simp only [hd, Bool.false_eq_true, if_false] at h ⊢
        rw [ih _ _ _ h]
        exact dispatchMutations_final_answer_of_not_done _ _ hd

/-- The mutation pass splits over concatenation: the second block runs from
the state the first block left, results concatenate, and `done` is the
disjunction. -/
theorem dispatchMutations_append (s : Scratchpad) (l1 l2 : List ToolCall) :
    dispatchMutations s (l1 ++ l2) =
      ⟨(dispatchMutations (dispatchMutations s l1).scratchpad l2).scratchpad,
       (dispatchMutations s l1).results
         ++ (dispatchMutations (dispatchMutations s l1).scratchpad l2).results,
       ((dispatchMutations s l1).done
         || (dispatchMutations (dispatchMutations s l1).scratchpad l2).done)⟩ := by
  induction l1 generalizing s with
  | nil => simp [dispatchMutations]
  | cons tc rest ih =>
    simp [dispatchMutations, ih, Bool.or_assoc, List.append_assoc]

/-- A mutation pass over a list holding a `finish` call ends with `done`. -/
theorem dispatchMutations_done_of_finish (s : Scratchpad) (calls : List ToolCall)
    (fin : ToolCall) (hmem : fin ∈ calls) (hname : fin.name = "finish") :
    (dispatchMutations s calls).done = true := by
  induction calls generalizing s with
  | nil => cases hmem
  | cons tc rest ih =>
    rcases List.mem_cons.mp hmem with h | h
    · subst h
      simp only [dispatchMutations, Bool.or_eq_true]
      left
      simp [dispatchMutation, hname]
    · simp only [dispatchMutations, Bool.or_eq_true]
      right
      exact ih _ h

/-- A mutation pass over calls none of which is a `finish` leaves
`final_answer` alone. -/
theorem dispatchMutations_final_answer_of_no_finish (s : Scratchpad)
    (calls : List ToolCall) (h : ∀ tc ∈ calls, ¬ tc.name = "finish") :
    (dispatchMutations s calls).scratchpad.final_answer = s.final_answer := by
  induction calls generalizing s with
  | nil => rfl
  | cons tc rest ih =>
    have h1 : ¬ tc.name = "finish" := h tc (by simp)
    have hstep : (dispatchMutation s tc).1.final_answer = s.final_answer := by
      by_cases ha : tc.name = "add_task"
      · simp [dispatchMutation, ha, Scratchpad.add_task]
      · by_cases hc : tc.name = "complete_task"
        · simp [dispatchMutation, ha, hc, Scratchpad.complete_task]
        · simp [dispatchMutation, ha, hc, h1]
    simp only [dispatchMutations]
    rw [ih _ (fun u hu => h u (by simp [hu])), hstep]

/-- Dispatching a `finish` call writes its `answer` argument into
`final_answer`, emits the status-done payload and raises `done`. -/
theorem dispatchMutation_finish (s : Scratchpad) (tc : ToolCall)
    (hname : tc.name = "finish") :
    dispatchMutation s tc =
      ({ s with final_answer := some tc.args.answer },
       some (Message.tool tc.id Payload.done), true) := by
  simp [dispatchMutation, hname]

/-- `Agent.run` in terms of the loop: every observation except the answer is
the loop's, and the answer is the in-loop return when there was one, the
fallback resolution of the final scratchpad otherwise. -/
theorem agentRun_parts (f : SearchFn) (p : Nat → PlannerResponse) (q : String) :
    (Agent.run f p q).scratchpad
        = (runAux f p MAX_ITERATIONS 0 (Scratchpad.init q) []).scratchpad ∧
    (Agent.run f p q).messages
        = (runAux f p MAX_ITERATIONS 0 (Scratchpad.init q) []).messages ∧
    (Agent.run f p q).exit
        = (runAux f p MAX_ITERATIONS 0 (Scratchpad.init q) []).exit ∧
    (Agent.run f p q).answer
        = (match (runAux f p MAX_ITERATIONS 0 (Scratchpad.init q) []).exit with
           | RunExit.returned c => c
           | _ => resolve (runAux f p MAX_ITERATIONS 0 (Scratchpad.init q) []).scratchpad) := by
  unfold Agent.run
  cases h : (runAux f p MAX_ITERATIONS 0 (Scratchpad.init q) []).exit <;> simp [h]

/-- Each slot of a completion fill holds the result of its own call as soon
as that call's completion has arrived, whatever the arrival order. -/
theorem completionFill_eval {n : Nat} (res : Fin n → Message)
    (sched : List (Fin n)) (acc : Fin n → Option Message) (i : Fin n) :
    completionFill res sched acc i =
      (if i ∈ sched then some (res i) else acc i) := by
  induction sched generalizing acc with
  | nil => simp [completionFill]
  | cons j rest ih =>
    simp only [completionFill, ih, List.mem_cons]
    by_cases hr : i ∈ rest
    · simp [hr]
    · by_cases hj : i = j
      · subst hj
        simp [hr, Function.update_same]
      · simp [hr, hj, Function.update_noteq hj]

/-- Once every completion has arrived, reading the slots in emission order
yields exactly the emission-ordered search results: the transcript content
is independent of the completion schedule. -/
theorem gatherSlots_of_cover (f : SearchFn) (calls : List ToolCall)
    (schedule : List (Fin calls.length)) (hcov : ∀ i, i ∈ schedule) :
    gatherSlots f calls schedule = (searchMessages f calls).map some := by
  unfold gatherSlots
  have h1 : (fun i => completionFill (fun i => searchMessage f calls[i]) schedule
      (fun _ => Option.none) i)
      = fun i : Fin calls.length => some (searchMessage f calls[i]) := by
    funext i
    rw [completionFill_eval]
    simp [hcov i]
  calc List.ofFn (completionFill (fun i => searchMessage f calls[i]) schedule
          (fun _ => Option.none))
      = List.ofFn (fun i : Fin calls.length => some (searchMessage f calls[i])) := by
        rw [← h1]
    _ = List.map (fun tc => some (searchMessage f tc))
          (List.ofFn (fun i : Fin calls.length => calls[i])) := by
        rw [List.map_ofFn]
        rfl
    _ = List.map (fun tc => some (searchMessage f tc)) calls := by
        rw [show List.ofFn (fun i : Fin calls.length => calls[i]) = calls by simp]
    _ = (searchMessages f calls).map some := by
        rw [searchMessages, List.map_map]
        rfl

/-- The loop only ever appends to the transcript. -/
theorem runAux_messages_extend (f : SearchFn) (p : Nat → PlannerResponse)
    (fuel it : Nat) (s : Scratchpad) (msgs : List Message) :
    ∃ rest, (runAux f p fuel it s msgs).messages = msgs ++ rest := by
  induction fuel generalizing it s msgs with
  | zero => exact ⟨[], by simp [runAux]⟩
  | succ fuel ih =>
    by_cases he : (p it).tool_calls.isEmpty
    · refine ⟨[Message.assistant (p it).content (p it).tool_calls], ?_⟩
      simp only [runAux, he, if_true]
      cases (p it).content with
      | none => rfl
      | some c => by_cases hce : c = "" <;> simp [hce]
    · simp only [runAux, he, Bool.false_eq_true, if_false]
      cases hd : (dispatchMutations s (nonSearchCalls (p it).tool_calls)).done with
      | true =>
        refine ⟨[Message.assistant (p it).content (p it).tool_calls]
          ++ searchMessages f (searchCalls (p it).tool_calls)
          ++ (dispatchMutations s (nonSearchCalls (p it).tool_calls)).results, ?_⟩
        simp [hd, List.append_assoc]
      | false =>
        simp only [hd, Bool.false_eq_true, if_false]
        obtain ⟨rest, hrest⟩ := ih (it + 1)
          (dispatchMutations s (nonSearchCalls (p it).tool_calls)).scratchpad
          (msgs ++ [Message.assistant (p it).content (p it).tool_calls]
            ++ searchMessages f (searchCalls (p it).tool_calls)
            ++ (dispatchMutations s (nonSearchCalls (p it).tool_calls)).results)
        refine ⟨[Message.assistant (p it).content (p it).tool_calls]
          ++ searchMessages f (searchCalls (p it).tool_calls)
          ++ (dispatchMutations s (nonSearchCalls (p it).tool_calls)).results
          ++ rest, ?_⟩
        rw [hrest]
        simp [List.append_assoc]

/-! ## Claims -/

/-- C1: the claim says `add_task` fails with InvalidDependency when a
dependency id matches no existing task, leaving the state unchanged.  At the
concrete call `add_task "t" [99]` on a fresh scratchpad (which has no task
with id 99, indeed no tasks at all), the operation instead succeeds —
returning id 0 — and mutates the state. -/
theorem add_task_invalid_dep_counterexample :
    (99 ∉ ((Scratchpad.init "q").tasks.map Task.id)) ∧
    ((Scratchpad.init "q").add_task "t" [99]).2 = 0 ∧
    ((Scratchpad.init "q").add_task "t" [99]).1 ≠ Scratchpad.init "q" := by
  refine ⟨by decide, rfl, ?_⟩
  intro h
  have h1 := congrArg (fun x => x.tasks.length) h
  simp [Scratchpad.add_task, Scratchpad.init] at h1

/-- C1 (amended): `add_task` performs no dependency validation and has no
failure path: for every state and every `depends_on` list — existing ids or
not — it appends one pending task carrying the current counter as its id and
the given dependency list, bumps the counter, returns the new id, and always
changes the state. -/
theorem add_task_always_appends (s : Scratchpad) (d : String) (deps : List Nat) :
    (s.add_task d deps).2 = s.next_id ∧
    (s.add_task d deps).1.tasks
      = s.tasks ++ [⟨s.next_id, d, TaskStatus.pending, deps, Option.none⟩] ∧
    (s.add_task d deps).1.next_id = s.next_id + 1 ∧
    (s.add_task d deps).1.question = s.question ∧
    (s.add_task d deps).1.final_answer = s.final_answer ∧
    (s.add_task d deps).1 ≠ s := by
  refine ⟨rfl, rfl, rfl, rfl, rfl, ?_⟩
  intro h
  have h1 := congrArg (fun x => x.tasks.length) h
  simp [Scratchpad.add_task] at h1

/-- C6: over any sequence of `add_task` calls the returned ids are the
consecutive naturals from the entry counter — hence unique and strictly
increasing in call order — each is the id of the task appended by its own
call, and the prior tasks and their ids survive untouched. -/
theorem add_task_ids_strictly_increasing (s : Scratchpad)
    (specs : List (String × List Nat)) :
    (addAll s specs).2 = List.range' s.next_id specs.length ∧
    List.Pairwise (· < ·) (addAll s specs).2 ∧
    (addAll s specs).2.Nodup ∧
    (addAll s specs).1.tasks.map Task.id = s.tasks.map Task.id ++ (addAll s specs).2 := by
  refine ⟨addAll_ids s specs, ?_, ?_, addAll_tasks_map s specs⟩
  · rw [addAll_ids]
    exact List.pairwise_lt_range' _ _
  · rw [addAll_ids]
    exact List.nodup_range' _ _

/-- C7: membership in `runnable_tasks` is exactly: the task is in the
scratchpad, its status is pending, and every id it depends on is the id of
some task currently marked complete; in particular no returned task has an
unmet dependency. -/
theorem runnable_tasks_iff (s : Scratchpad) (t : Task) :
    t ∈ s.runnable_tasks ↔
      t ∈ s.tasks ∧ t.status = TaskStatus.pending ∧
        ∀ d ∈ t.depends_on, ∃ u ∈ s.tasks, u.status = TaskStatus.complete ∧ u.id = d := by
  simp only [Scratchpad.runnable_tasks, Scratchpad.complete_ids, List.mem_filter,
    Bool.and_eq_true, decide_eq_true_eq, List.all_eq_true,
    List.elem_iff, List.mem_map, List.mem_filter, and_assoc]

/-- C10: `complete_task` through the dispatcher, on a `task_id` that matches
no task: the scratchpad comes back exactly unchanged (silent no-op, no error
value exists in the source), yet a success payload — status "ok" — is still
produced for the transcript, and the round's `done` flag stays false. -/
theorem complete_task_unknown_id_noop (s : Scratchpad) (tc : ToolCall)
    (hname : tc.name = "complete_task")
    (hid : tc.args.task_id ∉ s.tasks.map Task.id) :
    dispatchMutation s tc = (s, some (Message.tool tc.id Payload.ok), false) := by
  simp [dispatchMutation, hname, Scratchpad.complete_task,
    completeFirst_of_not_mem hid]

/-- A search oracle returning no documents; used to pin down concrete runs. -/
def emptySearch : SearchFn := fun _ _ => []

/-- C3: the loop is capped at `MAX_ITERATIONS = 10`; when it exhausts the
budget, the answer is the fallback resolution — a pure function of the final
scratchpad.  Under exhaustion no `finish` ever ran, so `final_answer` is
unset and the resolution is the partial concatenation over the completed
tasks with non-empty results (in creation order, tagged as partial) when
any exist, else the fixed no-results message. -/
theorem exhausted_resolution (f : SearchFn) (p : Nat → PlannerResponse)
    (q : String) (h : (Agent.run f p q).exit = RunExit.exhausted) :
    MAX_ITERATIONS = 10 ∧
    (Agent.run f p q).scratchpad.final_answer = Option.none ∧
    (Agent.run f p q).answer = resolve (Agent.run f p q).scratchpad ∧
    (Agent.run f p q).answer =
      (if (completedWithResult (Agent.run f p q).scratchpad).isEmpty then noResultsMsg
       else partialAnswer (completedWithResult (Agent.run f p q).scratchpad)) := by
  obtain ⟨hs, hm, he, ha⟩ := agentRun_parts f p q
  rw [he] at h
  have hfa : (Agent.run f p q).scratchpad.final_answer = Option.none := by
    rw [hs, runAux_exhausted_final_answer f p _ _ _ _ h]
    rfl
  have hres : (Agent.run f p q).answer = resolve (Agent.run f p q).scratchpad := by
    rw [ha, h, hs]
  refine ⟨rfl, hfa, hres, ?_⟩
  rw [hres]
  simp [resolve, hfa]

/-- Planner script that proposes one `add_task` every round, so the budget
is exhausted with no completed task. -/
def plannerAddLoop : Nat → PlannerResponse := fun _ =>
  ⟨Option.none, [⟨"a0", "add_task", { ToolArgs.none0 with description := "d" }⟩]⟩

/-- Witness for C3: a run of ten add_task rounds exhausts the budget and
resolves to the fixed no-results message. -/
theorem exhausted_resolution_witness :
    (Agent.run emptySearch plannerAddLoop "q").exit = RunExit.exhausted ∧
    (MAX_ITERATIONS = 10 ∧
     (Agent.run emptySearch plannerAddLoop "q").scratchpad.final_answer = Option.none ∧
     (Agent.run emptySearch plannerAddLoop "q").answer
        = resolve (Agent.run emptySearch plannerAddLoop "q").scratchpad ∧
     (Agent.run emptySearch plannerAddLoop "q").answer =
       (if (completedWithResult
              (Agent.run emptySearch plannerAddLoop "q").scratchpad).isEmpty then
          noResultsMsg
        else
          partialAnswer
            (completedWithResult (Agent.run emptySearch plannerAddLoop "q").scratchpad))) :=
  ⟨by decide, exhausted_resolution emptySearch plannerAddLoop "q" (by decide)⟩

/-- Planner script: round 0 proposes a single invocation with the unknown
name "deleteEverything"; every later round answers with free text. -/
def plannerUnknownTool : Nat → PlannerResponse := fun i =>
  if i = 0 then
    ⟨Option.none, [⟨"call0", "deleteEverything", ToolArgs.none0⟩]⟩
  else
    ⟨some "stop", []⟩

/-- C2: the claim says an invocation with a name outside the fixed set gets
an UnknownTool error payload appended as a tool result (never silently
dropped).  In the concrete run where round 0 proposes "deleteEverything",
the final transcript holds the two planner messages and no tool result at
all — the invocation was silently dropped (the run did continue and ended
with the next round's text). -/
theorem unknown_tool_dropped_counterexample :
    (Agent.run emptySearch plannerUnknownTool "q").messages =
      [Message.assistant Option.none [⟨"call0", "deleteEverything", ToolArgs.none0⟩],
       Message.assistant (some "stop") []] ∧
    ((Agent.run emptySearch plannerUnknownTool "q").messages.all
      (fun m => ! isToolResult m)) = true ∧
    (Agent.run emptySearch plannerUnknownTool "q").answer = "stop" := by
  decide

/-- C2 (amended): an invocation whose name is outside the fixed set
{search_knowledge, add_task, complete_task, finish} is silently skipped by
the sequential dispatcher: no tool result of any kind is appended for it,
the scratchpad is untouched, and it does not end the round — so the run
continues to the next round rather than terminating abnormally. -/
theorem unknown_tool_silently_skipped (s : Scratchpad) (tc : ToolCall)
    (h1 : ¬ tc.name = "add_task") (h2 : ¬ tc.name = "complete_task")
    (h3 : ¬ tc.name = "finish") :
    dispatchMutation s tc = (s, Option.none, false) := by
  simp [dispatchMutation, h1, h2, h3]

/-- Witness for C2 (amended): the "deleteEverything" invocation of the
counterexample run is skipped without a result. -/
theorem unknown_tool_silently_skipped_witness :
    dispatchMutation (Scratchpad.init "q")
        ⟨"call0", "deleteEverything", ToolArgs.none0⟩
      = (Scratchpad.init "q", Option.none, false) :=
  unknown_tool_silently_skipped _ _ (by decide) (by decide) (by decide)

/-- C4: in every round that carries invocations, the transcript is extended
by the planner's message, then the query-class (search) results in the
order the planner emitted the search calls, then the mutation-class results
in emission order — so a mutation result never precedes a search result of
its round.  The first conjunct pins the concurrency: whatever order the
search completions arrive in (any covering schedule), the gathered slots
read in emission order are exactly the emission-ordered results, so the
appended block is independent of completion timing. -/
theorem round_transcript_order (f : SearchFn) (p : Nat → PlannerResponse)
    (fuel it : Nat) (s : Scratchpad) (msgs : List Message)
    (hne : ¬ (p it).tool_calls = [])
    (schedule : List (Fin (searchCalls (p it).tool_calls).length))
    (hcov : ∀ i, i ∈ schedule) :
    gatherSlots f (searchCalls (p it).tool_calls) schedule
        = (searchMessages f (searchCalls (p it).tool_calls)).map some ∧
    ∃ rest, (runAux f p (fuel + 1) it s msgs).messages
        = msgs ++ [Message.assistant (p it).content (p it).tool_calls]
          ++ searchMessages f (searchCalls (p it).tool_calls)
          ++ (dispatchMutations s (nonSearchCalls (p it).tool_calls)).results
          ++ rest := by
  refine ⟨gatherSlots_of_cover f _ schedule hcov, ?_⟩
  have hb : (p it).tool_calls.isEmpty = false := by
    cases hx : (p it).tool_calls with
    | nil => exact absurd hx hne
    | cons a l => rfl
  simp only [runAux, hb, Bool.false_eq_true, if_false]
  cases hd : (dispatchMutations s (nonSearchCalls (p it).tool_calls)).done with
  | true => exact ⟨[], by simp [List.append_assoc]⟩
  | false =>
    simp only [hd, Bool.false_eq_true, if_false]
    obtain ⟨rest, hrest⟩ := runAux_messages_extend f p fuel (it + 1)
      (dispatchMutations s (nonSearchCalls (p it).tool_calls)).scratchpad
      (msgs ++ [Message.assistant (p it).content (p it).tool_calls]
        ++ searchMessages f (searchCalls (p it).tool_calls)
        ++ (dispatchMutations s (nonSearchCalls (p it).tool_calls)).results)
    exact ⟨rest, by rw [hrest]⟩

/-- First search call of the C4 witness round. -/
def sA : ToolCall := ⟨"s0", "search_knowledge", { ToolArgs.none0 with query := "qa" }⟩

/-- Second search call of the C4 witness round. -/
def sB : ToolCall :=
  ⟨"s1", "search_knowledge", { ToolArgs.none0 with query := "qb", top_k := some 1 }⟩

/-- The mutation call sandwiched between the two searches. -/
def mA : ToolCall := ⟨"m0", "add_task", { ToolArgs.none0 with description := "t" }⟩

/-- Planner script for the C4 witness: searches interleaved with a mutation. -/
def plannerMixed : Nat → PlannerResponse := fun i =>
  if i = 0 then ⟨Option.none, [sA, mA, sB]⟩ else ⟨some "stop", []⟩

/-- Search oracle that reflects its arguments, so results are telling. -/
def namedSearch : SearchFn := fun q k => [⟨0, q, (k : ℚ)⟩]

/-- The reversed completion schedule: the second search finishes first. -/
def revSchedule : List (Fin (searchCalls (plannerMixed 0).tool_calls).length) :=
  [⟨1, by decide⟩, ⟨0, by decide⟩]

/-- Witness for C4: with completions arriving in reversed order the round
still appends planner message, then both search results in emission order,
then the mutation result. -/
theorem round_transcript_order_witness :
    gatherSlots namedSearch (searchCalls (plannerMixed 0).tool_calls) revSchedule
        = (searchMessages namedSearch (searchCalls (plannerMixed 0).tool_calls)).map some ∧
    ∃ rest, (runAux namedSearch plannerMixed 1 0 (Scratchpad.init "q") []).messages
        = [] ++ [Message.assistant Option.none [sA, mA, sB]]
          ++ searchMessages namedSearch (searchCalls (plannerMixed 0).tool_calls)
          ++ (dispatchMutations (Scratchpad.init "q")
                (nonSearchCalls (plannerMixed 0).tool_calls)).results
          ++ rest :=
  round_transcript_order namedSearch plannerMixed 0 0 (Scratchpad.init "q") []
    (by decide) revSchedule (by decide)

/-- Planner script whose single round proposes one `finish` whose `answer`
argument is the empty string. -/
def plannerFinishEmpty : Nat → PlannerResponse := fun _ =>
  ⟨Option.none, [⟨"f0", "finish", ToolArgs.none0⟩]⟩

/-- C5: the claim says that when a `finish` invocation is present, the value
returned by `run` equals the finish invocation's `answer` argument.  With a
`finish` whose answer is the empty string, `final_answer` is indeed set to
that string, but the Python truthiness test at the bottom of `run` skips it
and the run returns the fixed no-results message instead of the answer
argument. -/
theorem finish_empty_answer_counterexample :
    (plannerFinishEmpty 0).tool_calls.map ToolCall.name = ["finish"] ∧
    (plannerFinishEmpty 0).tool_calls.map (fun tc => tc.args.answer) = [""] ∧
    (Agent.run emptySearch plannerFinishEmpty "q").scratchpad.final_answer = some "" ∧
    (Agent.run emptySearch plannerFinishEmpty "q").answer = noResultsMsg ∧
    ¬ (Agent.run emptySearch plannerFinishEmpty "q").answer = "" := by
  decide

/-- C5 (amended): in any round whose mutation-class calls contain a `finish`
(written `pre ++ fin :: post` with no further finish in `post`), the loop
executes every mutation of the round — those after the finish included —
and only then leaves with a break; `final_answer` ends equal to the (last)
finish invocation's `answer` argument; and whenever that answer is
non-empty, the fallback resolution that `run` returns after a break yields
exactly that answer. -/
theorem finish_round_semantics (f : SearchFn) (p : Nat → PlannerResponse)
    (fuel it : Nat) (s : Scratchpad) (msgs : List Message)
    (pre post : List ToolCall) (fin : ToolCall)
    (hsplit : nonSearchCalls (p it).tool_calls = pre ++ fin :: post)
    (hfin : fin.name = "finish")
    (hpost : ∀ tc ∈ post, ¬ tc.name = "finish") :
    runAux f p (fuel + 1) it s msgs =
      ⟨(dispatchMutations s (nonSearchCalls (p it).tool_calls)).scratchpad,
       msgs ++ [Message.assistant (p it).content (p it).tool_calls]
         ++ searchMessages f (searchCalls (p it).tool_calls)
         ++ (dispatchMutations s (nonSearchCalls (p it).tool_calls)).results,
       RunExit.broke⟩ ∧
    (dispatchMutations s (nonSearchCalls (p it).tool_calls)).scratchpad.final_answer
        = some fin.args.answer ∧
    (¬ fin.args.answer = "" →
      resolve (dispatchMutations s (nonSearchCalls (p it).tool_calls)).scratchpad
        = fin.args.answer) := by
  have hne : (p it).tool_calls.isEmpty = false := by
    cases hx : (p it).tool_calls with
    | nil =>
      have hlen := congrArg List.length hsplit
      rw [hx] at hlen
      simp [nonSearchCalls] at hlen
      omega
    | cons a l => rfl
  have hdone : (dispatchMutations s (nonSearchCalls (p it).tool_calls)).done = true := by
    refine dispatchMutations_done_of_finish s _ fin ?_ hfin
    rw [hsplit]
    simp
  have hfa : (dispatchMutations s (nonSearchCalls (p it).tool_calls)).scratchpad.final_answer
      = some fin.args.answer := by
    rw [hsplit, dispatchMutations_append]
    have hcons : dispatchMutations (dispatchMutations s pre).scratchpad (fin :: post)
        = let r := dispatchMutation (dispatchMutations s pre).scratchpad fin
          let out := dispatchMutations r.1 post
          ⟨out.scratchpad, r.2.1.toList ++ out.results, r.2.2 || out.done⟩ := rfl
    rw [hcons, dispatchMutation_finish _ _ hfin]
    exact dispatchMutations_final_answer_of_no_finish _ post hpost
  refine ⟨?_, hfa, ?_⟩
  · simp only [runAux, hne, Bool.false_eq_true, if_false, hdone, if_true,
      List.append_assoc]
  · intro hne'
    simp [resolve, hfa, hne']

/-- The finish-then-mutate script: one round proposing `finish("done!")`
followed by a further `add_task`. -/
def finTC : ToolCall := ⟨"f0", "finish", { ToolArgs.none0 with answer := "done!" }⟩

/-- The mutation emitted after the finish in the witness round. -/
def lateTC : ToolCall := ⟨"a1", "add_task", { ToolArgs.none0 with description := "late" }⟩

/-- Planner script for the C5 witness. -/
def plannerFinishThenAdd : Nat → PlannerResponse := fun _ =>
  ⟨Option.none, [finTC, lateTC]⟩

/-- Witness for C5 (amended): the round executes the `add_task` emitted
after the finish (the final scratchpad holds task 0 "late"), breaks, and
the resolution returns the finish answer "done!". -/
theorem finish_round_semantics_witness :
    runAux emptySearch plannerFinishThenAdd 1 0 (Scratchpad.init "q") [] =
      ⟨⟨"q", [⟨0, "late", TaskStatus.pending, [], Option.none⟩], some "done!", 1⟩,
       [Message.assistant Option.none [finTC, lateTC],
        Message.tool "f0" Payload.done, Message.tool "a1" (Payload.taskId 0)],
       RunExit.broke⟩ ∧
    resolve (dispatchMutations (Scratchpad.init "q")
        (nonSearchCalls (plannerFinishThenAdd 0).tool_calls)).scratchpad = "done!" :=
  have t := finish_round_semantics emptySearch plannerFinishThenAdd 0 0
    (Scratchpad.init "q") [] [] [lateTC] finTC rfl rfl (by decide)
  ⟨t.1, t.2.2 (by decide)⟩

/-- Planner script replying with empty free text and no tool calls. -/
def plannerEmptyText : Nat → PlannerResponse := fun _ => ⟨some "", []⟩

/-- C8: the claim says a response with zero invocations makes the loop
finish with the response's free text as the answer.  When that free text is
the empty string the loop instead breaks out and resolves through the
no-results fallback: the returned answer is the fixed message, not the
response's text. -/
theorem implicit_finish_empty_counterexample :
    (plannerEmptyText 0).tool_calls = [] ∧
    (plannerEmptyText 0).content = some "" ∧
    (Agent.run emptySearch plannerEmptyText "q").answer = noResultsMsg ∧
    ¬ (Agent.run emptySearch plannerEmptyText "q").answer = "" := by
  decide

/-- C8 (amended): a response with zero invocations ends the loop at once —
returning the free text when it is non-empty, and falling through to the
fallback resolution when the text is empty or absent; and in a round whose
response does carry invocations, the free text is never returned as the
answer by that round (exercised here on the last round of the budget, where
the round either breaks on finish or exhausts). -/
theorem implicit_finish_behavior (f : SearchFn) (p : Nat → PlannerResponse)
    (fuel it : Nat) (s : Scratchpad) (msgs : List Message) :
    ((p it).tool_calls = [] →
      runAux f p (fuel + 1) it s msgs =
        ⟨s, msgs ++ [Message.assistant (p it).content (p it).tool_calls],
          match (p it).content with
          | some c => if c = "" then RunExit.broke else RunExit.returned c
          | Option.none => RunExit.broke⟩) ∧
    (¬ (p it).tool_calls = [] →
      (runAux f p 1 it s msgs).exit.isReturned = false) := by
  constructor
  · intro h
    simp only [runAux, h, List.isEmpty_nil, if_true]
    cases hc : (p it).content with
    | none => rfl
    | some c =>
      by_cases hce : c = "" <;> simp [hce]
  · intro h
    have hne : (p it).tool_calls.isEmpty = false := by
      cases hc : (p it).tool_calls with
      | nil => exact absurd hc h
      | cons a l => rfl
    simp only [runAux, hne, Bool.false_eq_true, if_false]
    cases hd : (dispatchMutations s (nonSearchCalls (p it).tool_calls)).done <;>
      simp [hd, RunExit.isReturned]

/-- Witness for C8 (amended): a zero-invocation round with text "hi"
returns that text; a round carrying one add_task invocation does not return
its text. -/
theorem implicit_finish_behavior_witness :
    runAux emptySearch (fun _ => ⟨some "hi", []⟩) 1 0 (Scratchpad.init "q") [] =
      ⟨Scratchpad.init "q", [Message.assistant (some "hi") []], RunExit.returned "hi"⟩ ∧
    (runAux emptySearch
        (fun _ => ⟨some "hi", [⟨"c0", "add_task", ToolArgs.none0⟩]⟩)
        1 0 (Scratchpad.init "q") []).exit.isReturned = false :=
  ⟨(implicit_finish_behavior emptySearch (fun _ => ⟨some "hi", []⟩)
      0 0 (Scratchpad.init "q") []).1 rfl,
   (implicit_finish_behavior emptySearch
      (fun _ => ⟨some "hi", [⟨"c0", "add_task", ToolArgs.none0⟩]⟩)
      0 0 (Scratchpad.init "q") []).2 (by decide)⟩

/-- Three-document corpus for the C9 counterexample. -/
def ceDocs : List String := ["d0", "d1", "d2"]

/-- Score oracle for the C9 counterexample: every query scores the corpus
as (1, 3, 2). -/
def ceScores : String → List ℚ := fun _ => [1, 3, 2]

/-- C9: the claim requires a non-empty query, a default of 3 for an invalid
topK, and result length at most topK.  The concrete call with the empty
query and topK = -1 is accepted (no validation anywhere in the branch),
does not fall back to the default of 3 (it returns 2 records where topK = 3
returns 3), and returns more records than its topK allows. -/
theorem search_no_validation_counterexample :
    mcp1CallTool ceDocs ceScores "search" "" (some (-1))
        = Except.ok [⟨1, "d1", 3⟩, ⟨2, "d2", 2⟩] ∧
    ¬ (mcp1Search ceDocs ceScores "" (some (-1))).length
        = (mcp1Search ceDocs ceScores "" (some 3)).length ∧
    ¬ ((mcp1Search ceDocs ceScores "" (some (-1))).length : Int) ≤ -1 := by
  refine ⟨by rfl, by decide, by decide⟩

/-- C9 (amended): the `search` branch accepts every query — the empty one
included — and always answers `ok`; the records come back sorted descending
by score; `top_k` defaults to 3 only when the argument is absent, bounding
the result length by 3; and for a present nonnegative `top_k = k` the
result length is at most `k` (a negative `top_k` instead slices from the
end, as the counterexample shows). -/
theorem mcp1_search_behavior (documents : List String)
    (scoreFn : String → List ℚ) (query : String) (top_k_arg : Option Int) :
    mcp1CallTool documents scoreFn "search" query top_k_arg
        = Except.ok (mcp1Search documents scoreFn query top_k_arg) ∧
    List.Pairwise (fun a b => b.score ≤ a.score)
        (mcp1Search documents scoreFn query top_k_arg) ∧
    (top_k_arg = Option.none →
        (mcp1Search documents scoreFn query top_k_arg).length ≤ 3) ∧
    (∀ k : Int, top_k_arg = some k → 0 ≤ k →
        ((mcp1Search documents scoreFn query top_k_arg).length : Int) ≤ k) := by
  refine ⟨by simp [mcp1CallTool], ?_, ?_, ?_⟩
  · unfold mcp1Search
    refine List.Pairwise.map _ (fun i j h => h) ?_
    exact List.Pairwise.sublist (pySliceTo_sublist _ _)
      (argsortDescending_pairwise _ documents.length)
  · intro hk
    unfold mcp1Search
    simp only [hk, Option.getD, List.length_map]
    unfold pySliceTo
    simp [List.length_take]
  · intro k hk hk0
    unfold mcp1Search
    simp only [hk, Option.getD, List.length_map]
    unfold pySliceTo
    rw [if_pos hk0]
    have h2 : (List.take k.toNat
        (argsortDescending (fun i => (scoreFn query).getD i 0) documents.length)).length
        ≤ k.toNat := List.length_take_le _ _
    omega

/-- Witness for C9 (amended): the default bound with `top_k` absent, and
the explicit bound with `top_k = 2`, on the counterexample corpus. -/
theorem mcp1_search_behavior_witness :
    (mcp1Search ceDocs ceScores "hello" Option.none).length ≤ 3 ∧
    ((mcp1Search ceDocs ceScores "hello" (some 2)).length : Int) ≤ 2 :=
  ⟨(mcp1_search_behavior ceDocs ceScores "hello" Option.none).2.2.1 rfl,
   (mcp1_search_behavior ceDocs ceScores "hello" (some 2)).2.2.2 2 rfl (by decide)⟩

/-- Witness for C10: completing task 5 on a scratchpad holding only task 0. -/
theorem complete_task_unknown_id_noop_witness :
    dispatchMutation
        ⟨"q", [⟨0, "d", TaskStatus.pending, [], Option.none⟩], Option.none, 1⟩
        ⟨"c1", "complete_task", { ToolArgs.none0 with task_id := 5 }⟩
      = (⟨"q", [⟨0, "d", TaskStatus.pending, [], Option.none⟩], Option.none, 1⟩,
         some (Message.tool "c1" Payload.ok), false) :=
  complete_task_unknown_id_noop _ _ rfl (by decide)

end NestedMcps
